import Mathlib

/-!
Verification of the p2p-mls peer node: the session lifecycle state machine
(`src/node.rs`), the command loop (`src/cli.rs`) and the inbound message
dispatcher (`src/main.rs`), shallowly embedded in Lean 4.

The Secure Group Messaging Provider (the external `openmls` crate) is not
part of the repository; its operations are modelled from the spec's
collaborator interface (spec section 6) as an idealized MLS provider: groups
carry a group id, an epoch and a member list, messages are tagged with the
group id and epoch under which they were produced, and a message validates
exactly against the group state of that epoch.  Key packages are abstract
identifiers.  All code of the repository itself (Node, cli, dispatcher) is
translated directly from the source.
-/

/-- Modelled from the spec: a key package is a member's published
cryptographic capability blob; we model it as an abstract identifier
(spec section 6, `issueKeyPackage`). -/
abbrev KeyPackage := Nat

/-- Errors carried by `NodeError(pub String)` from `src/error.rs`; the
payload is the error string. -/
abbrev NodeError := String

/-- Modelled from the spec: a welcome blob lets a newly admitted member
derive the group's current key schedule; it records the group id, the epoch
the new member joins at, the member list, and which key package it admits
(spec section 6, glossary). -/
structure Welcome where
  groupId : Nat
  epoch : Nat
  members : List KeyPackage
  recipient : KeyPackage
deriving DecidableEq, Repr

/-- Modelled from the spec: a protocol message is either an encrypted
application message or a commit; it is tagged with the group id and epoch
it was produced under (spec section 6, `encrypt` / `addMember`). -/
inductive MlsMessageOut where
  | application (groupId : Nat) (epoch : Nat) (plaintext : String)
  | commit (groupId : Nat) (epoch : Nat) (newMember : KeyPackage)
deriving DecidableEq, Repr

/-- Modelled from the spec: the provider's opaque `GroupHandle` — membership
list and key-schedule epoch, plus the pending (unmerged) commit staged by
`add_members` (spec section 3, GroupHandle; section 6). -/
structure MlsGroup where
  groupId : Nat
  epoch : Nat
  members : List KeyPackage
  pendingAdd : Option KeyPackage
deriving DecidableEq, Repr

/-- The fixed group id `b"Test Group"` used by `generate_mls_group` in
`src/crypto.rs`, abstracted to a numeric constant. -/
def testGroupId : Nat := 0

/-- Embeds `generate_mls_group` (`src/crypto.rs`): a fresh group seeded with
the creator's key package, at epoch 0, with the fixed group id. -/
def generate_mls_group (key_package : KeyPackage) : MlsGroup :=
  { groupId := testGroupId, epoch := 0, members := [key_package], pendingAdd := none }

/-- Embeds `generate_mls_group_from_welcome` (`src/crypto.rs`), with the
provider call `MlsGroup::new_from_welcome` modelled from the spec: it fails
if the welcome is not addressed to this node's key package, and otherwise
yields the group state recorded in the welcome (spec section 4.1,
`joinFromWelcome`). -/
def generate_mls_group_from_welcome (own_key_package : KeyPackage) (w : Welcome) :
    Except NodeError MlsGroup :=
  if w.recipient = own_key_package then
    .ok { groupId := w.groupId, epoch := w.epoch, members := w.members, pendingAdd := none }
  else
    .error "welcome not addressed to this node"

/-- Modelled from the spec: provider `add_members` — produces the commit
artifact for existing members (tagged with the current epoch), the welcome
artifact for the new member (valid at the next epoch), and stages the
pending commit on the handle (spec section 6, `addMember`). -/
def MlsGroup.add_members (g : MlsGroup) (kp : KeyPackage) :
    MlsMessageOut × Welcome × MlsGroup :=
  ( MlsMessageOut.commit g.groupId g.epoch kp,
    { groupId := g.groupId, epoch := g.epoch + 1,
      members := g.members ++ [kp], recipient := kp },
    { g with pendingAdd := some kp } )

/-- Modelled from the spec: provider `merge_pending_commit` — merging the
staged commit advances the epoch and extends the member list (spec
section 4.1, `addMember`; glossary, epoch). -/
def MlsGroup.merge_pending_commit (g : MlsGroup) : MlsGroup :=
  match g.pendingAdd with
  | some kp =>
      { groupId := g.groupId, epoch := g.epoch + 1,
        members := g.members ++ [kp], pendingAdd := none }
  | none => g

/-- Modelled from the spec: provider `create_message` — encrypts the
plaintext under the current group epoch (spec section 6, `encrypt`). -/
def MlsGroup.create_message (g : MlsGroup) (msg : String) : MlsMessageOut :=
  MlsMessageOut.application g.groupId g.epoch msg

/-- Outcome of the provider's parse-and-process pipeline, mirroring
`openmls::ProcessedMessage` as used in `src/node.rs`. -/
inductive ProcessedMessage where
  | applicationMessage (plaintext : String)
  | stagedCommitMessage (merged : MlsGroup)
deriving DecidableEq, Repr

/-- Modelled from the spec: provider `parse_message` followed by
`process_unverified_message` — a message validates exactly against the
group state of the epoch it was produced under; otherwise a parse error
(spec section 6, `receive`; section 8, round trip). -/
def MlsGroup.parse_and_process (g : MlsGroup) (m : MlsMessageOut) :
    Except NodeError ProcessedMessage :=
  match m with
  | .application gid e s =>
      if gid = g.groupId ∧ e = g.epoch then .ok (.applicationMessage s)
      else .error "could not parse message"
  | .commit gid e kp =>
      if gid = g.groupId ∧ e = g.epoch then
        .ok (.stagedCommitMessage
          { groupId := g.groupId, epoch := g.epoch + 1,
            members := g.members ++ [kp], pendingAdd := none })
      else .error "could not parse message"

/-- Embeds `Identity` (`src/node.rs`): the network keypair (abstracted to a
numeric identifier) and this node's key package. -/
structure Identity where
  network_key : Nat
  key_package : KeyPackage
deriving DecidableEq, Repr

/-- Embeds `Node` (`src/node.rs`).  The `backend` field (the provider's key
store) is owned by the modelled provider and carries no observable state
here; the remaining fields are translated directly. -/
structure Node where
  mls_group : Option MlsGroup
  identity : Identity
  is_group_leader : Bool
deriving DecidableEq, Repr

/-- Embeds `Node::default` (`src/node.rs`): fresh identity, no group, not a
leader.  Identity generation is randomized in the source, so the fresh
identity is a parameter. -/
def Node.default (id : Identity) : Node :=
  { mls_group := none, identity := id, is_group_leader := false }

/-- Embeds `Node::join_new_group` (`src/node.rs`): unconditionally installs
a freshly created group and sets the leader flag. -/
def Node.join_new_group (n : Node) : Node :=
  { n with mls_group := some (generate_mls_group n.identity.key_package),
           is_group_leader := true }

/-- Embeds `Node::get_key_package` (`src/node.rs`). -/
def Node.get_key_package (n : Node) : KeyPackage :=
  n.identity.key_package

/-- Embeds `Node::add_member_to_group` (`src/node.rs`).  The
`.expect("group expected")` panic on a missing group is modelled as `none`
(process abort); otherwise the member is added and the pending commit is
merged immediately, returning the commit and welcome artifacts. -/
def Node.add_member_to_group (n : Node) (key_package : KeyPackage) :
    Option (Node × MlsMessageOut × Welcome) :=
  match n.mls_group with
  | none => none
  | some group =>
      match group.add_members key_package with
      | (m_out, welcome, staged) =>
          some ({ n with mls_group := some staged.merge_pending_commit }, m_out, welcome)

/-- Embeds `Node::join_existing_group` (`src/node.rs`): the `?` on the
provider call returns the error before any assignment, so on failure the
node is unchanged; on success the group is installed and the leader flag
cleared.  The mutable receiver is made explicit by returning the node. -/
def Node.join_existing_group (n : Node) (welcome : Welcome) :
    Node × Except NodeError Unit :=
  match generate_mls_group_from_welcome n.identity.key_package welcome with
  | .ok g => ({ n with mls_group := some g, is_group_leader := false }, .ok ())
  | .error e => (n, .error e)

/-- Embeds `Node::create_message` (`src/node.rs`): with no group it returns
the `"Group required to create message"` error before touching any state;
with a group the provider encrypts under the current epoch.  The mutable
receiver is made explicit by returning the node. -/
def Node.create_message (n : Node) (msg : String) :
    Node × Except NodeError MlsMessageOut :=
  match n.mls_group with
  | none => (n, .error "Group required to create message")
  | some g => (n, .ok (g.create_message msg))

/-- Embeds `Node::parse_message` (`src/node.rs`): with no group it is a
silent no-op returning `Ok(None)`; otherwise the message is parsed and
processed — an application message yields its plaintext, a staged commit is
merged into the group, a parse failure propagates as an error with the node
unchanged. -/
def Node.parse_message (n : Node) (msg_out : MlsMessageOut) :
    Node × Except NodeError (Option String) :=
  match n.mls_group with
  | none => (n, .ok none)
  | some g =>
      match g.parse_and_process msg_out with
      | .error e => (n, .error e)
      | .ok (.applicationMessage s) => (n, .ok (some s))
      | .ok (.stagedCommitMessage merged) =>
          ({ n with mls_group := some merged }, .ok none)

/-- One serialized protocol artifact on the wire, abstracting the
`tls_serialize_detached` byte encodings produced in `src/cli.rs` and
`src/main.rs`.  An empty list of atoms is the empty byte vector
`Vec::new()`. -/
inductive WireAtom where
  | keyPackageBytes (kp : KeyPackage)
  | messageBytes (m : MlsMessageOut)
  | welcomeBytes (w : Welcome)
deriving DecidableEq, Repr

/-- One parsed command line, the outcome of the Docopt parse in
`src/cli.rs`: `create`, `join`, `send <message>`, or a line Docopt rejects
(which is printed and otherwise ignored). -/
inductive Cmd where
  | create
  | join
  | send (message : String)
  | invalid
deriving DecidableEq, Repr

/-- Embeds `parse_stdin` (`src/cli.rs`): `create` calls `join_new_group`
and leaves the message empty; `join` serializes this node's key package;
`send` with a non-empty message encrypts it (propagating the no-group
error via `?`); anything else leaves the message empty. -/
def parse_stdin (n : Node) (cmd : Cmd) : Except NodeError (Node × List WireAtom) :=
  match cmd with
  | .create => .ok (n.join_new_group, [])
  | .join => .ok (n, [WireAtom.keyPackageBytes n.get_key_package])
  | .send message =>
      if message.isEmpty then .ok (n, [])
      else
        match n.create_message message with
        | (_, .error e) => .error e
        | (n', .ok m) => .ok (n', [WireAtom.messageBytes m])
  | .invalid => .ok (n, [])

/-- Embeds one iteration of the command loop in `main` (`src/main.rs`,
the stdin `while`): on `Ok(msg)` the returned payload is enqueued onto the
outbound queue unconditionally; on `Err` the error is printed and nothing
is enqueued. -/
def commandLoopStep (n : Node) (queue : List (List WireAtom)) (cmd : Cmd) :
    Node × List (List WireAtom) :=
  match parse_stdin n cmd with
  | .ok (n', msg) => (n', queue ++ [msg])
  | .error _ => (n, queue)

/-- An opaque inbound byte blob as seen by the dispatcher in `src/main.rs`.
The wire format has no type tag; each field records whether the trial
deserialization of the blob as that type succeeds (`KeyPackage::try_from`,
`MlsMessageOut::try_from_bytes`, `Welcome::tls_deserialize`).  Several
fields may be `some` at once: the source never assumes the decodings are
exclusive. -/
structure Blob where
  asKeyPackage : Option KeyPackage
  asMsgOut : Option MlsMessageOut
  asWelcome : Option Welcome
  raw : List Nat
deriving DecidableEq, Repr

/-- The four handler classes of the message dispatcher (spec section 4.2). -/
inductive DispatchBranch where
  | keyPackage
  | protocolMessage
  | welcome
  | unclassified
deriving DecidableEq, Repr

/-- The content-sniffing classifier of spec section 4.2: trial decodings in
fixed priority order — key package, else protocol message, else welcome,
else unclassified raw text. -/
def classify (b : Blob) : DispatchBranch :=
  match b.asKeyPackage with
  | some _ => .keyPackage
  | none =>
      match b.asMsgOut with
      | some _ => .protocolMessage
      | none =>
          match b.asWelcome with
          | some _ => .welcome
          | none => .unclassified

/-- Embeds the inbound dispatch loop of `main` (`src/main.rs`): the nested
`if let Ok(..)` chain over the trial decodings.  Returns the updated node
and the payloads enqueued onto the outbound queue; `none` models the
`.unwrap()` / `.expect()` aborts reachable on the leader path. -/
def dispatch (n : Node) (b : Blob) : Option (Node × List WireAtom) :=
  match b.asKeyPackage with
  | some key_package =>
      if n.is_group_leader then
        match n.add_member_to_group key_package with
        | some (n', msg_out, welcome) =>
            some (n', [WireAtom.welcomeBytes welcome, WireAtom.messageBytes msg_out])
        | none => none
      else some (n, [])
  | none =>
      match b.asMsgOut with
      | some msg_out => some ((n.parse_message msg_out).1, [])
      | none =>
          match b.asWelcome with
          | some welcome => some ((n.join_existing_group welcome).1, [])
          | none => some (n, [])

/-- Handler of the key-package branch of the dispatcher (`src/main.rs`):
only a leader acts on a decoded key package; a non-leader ignores it. -/
def handle_key_package (n : Node) (b : Blob) : Option (Node × List WireAtom) :=
  match b.asKeyPackage with
  | some key_package =>
      if n.is_group_leader then
        match n.add_member_to_group key_package with
        | some (n', msg_out, welcome) =>
            some (n', [WireAtom.welcomeBytes welcome, WireAtom.messageBytes msg_out])
        | none => none
      else some (n, [])
  | none => some (n, [])

/-- Handler of the protocol-message branch of the dispatcher
(`src/main.rs`): receive the message; any plaintext is displayed, errors
are printed; nothing is enqueued. -/
def handle_protocol_message (n : Node) (b : Blob) : Option (Node × List WireAtom) :=
  match b.asMsgOut with
  | some msg_out => some ((n.parse_message msg_out).1, [])
  | none => some (n, [])

/-- Handler of the welcome branch of the dispatcher (`src/main.rs`): try to
join from the welcome; success or failure is logged; nothing is enqueued. -/
def handle_welcome (n : Node) (b : Blob) : Option (Node × List WireAtom) :=
  match b.asWelcome with
  | some welcome => some ((n.join_existing_group welcome).1, [])
  | none => some (n, [])

/-- Handler of the unclassified branch of the dispatcher (`src/main.rs`):
the raw bytes are displayed verbatim; no state change, nothing enqueued. -/
def handle_unclassified (n : Node) (_b : Blob) : Option (Node × List WireAtom) :=
  some (n, [])

/-- Dispatch through the classifier: apply the handler the classifier
selects (the spec's view of section 4.2). -/
def runHandler (br : DispatchBranch) (n : Node) (b : Blob) :
    Option (Node × List WireAtom) :=
  match br with
  | .keyPackage => handle_key_package n b
  | .protocolMessage => handle_protocol_message n b
  | .welcome => handle_welcome n b
  | .unclassified => handle_unclassified n b

/-- One observable operation on a `Node` (`src/node.rs`); the alphabet of
the session lifecycle state machine quantified over in the invariant
claims. -/
inductive Op where
  | joinNew
  | joinExisting (w : Welcome)
  | addMember (kp : KeyPackage)
  | createMsg (s : String)
  | parseMsg (m : MlsMessageOut)
deriving DecidableEq, Repr

/-- The node state after one operation; `none` models a panicking
`.expect()` (the process aborts, so no further state is observable). -/
def Node.step (n : Node) : Op → Option Node
  | .joinNew => some n.join_new_group
  | .joinExisting w => some (n.join_existing_group w).1
  | .addMember kp => (n.add_member_to_group kp).map (fun r => r.1)
  | .createMsg s => some (n.create_message s).1
  | .parseMsg m => some (n.parse_message m).1

/-- The node state after a sequence of operations, aborting at the first
panic. -/
def Node.run (n : Node) : List Op → Option Node
  | [] => some n
  | op :: ops => (n.step op).bind (fun n' => n'.run ops)

/-- The leadership invariant of spec section 3: the leader flag implies an
active group. -/
def leaderInv (n : Node) : Prop :=
  n.is_group_leader = true → n.mls_group.isSome = true

/-- C10: `join_new_group` performs no precondition check — for every node,
including one whose `mls_group` is already `Some`, it unconditionally
replaces `mls_group` with a freshly created group and sets
`is_group_leader`, discarding any prior membership without error. -/
theorem join_new_group_unconditional :
  (∀ n : Node, n.join_new_group =
    { n with mls_group := some (generate_mls_group n.identity.key_package),
             is_group_leader := true })
  ∧ (∀ (n : Node) (g : MlsGroup), n.mls_group = some g →
      (n.join_new_group).mls_group = some (generate_mls_group n.identity.key_package) ∧
      (n.join_new_group).is_group_leader = true) := by
  constructor
  · intro n; rfl
  · intro n g _; exact ⟨rfl, rfl⟩

/-- Witness for C10: a node that already holds a group (here one obtained
from a welcome) still has its group overwritten by `join_new_group`. -/
theorem join_new_group_unconditional_witness :
  (({ mls_group := some { groupId := 0, epoch := 1, members := [0, 1], pendingAdd := none },
      identity := { network_key := 1, key_package := 1 },
      is_group_leader := false : Node }).join_new_group).mls_group =
    some (generate_mls_group 1)
  ∧ (({ mls_group := some { groupId := 0, epoch := 1, members := [0, 1], pendingAdd := none },
        identity := { network_key := 1, key_package := 1 },
        is_group_leader := false : Node }).join_new_group).is_group_leader = true :=
  join_new_group_unconditional.2
    { mls_group := some { groupId := 0, epoch := 1, members := [0, 1], pendingAdd := none },
      identity := { network_key := 1, key_package := 1 }, is_group_leader := false }
    { groupId := 0, epoch := 1, members := [0, 1], pendingAdd := none } rfl

/-- C4: `create_message` with no active group fails with the
`"Group required to create message"` error and leaves the node unchanged;
with an active group it returns `Ok` with the encrypted artifact (and the
node as the source mutates it). -/
theorem create_message_requires_group :
  (∀ (n : Node) (s : String), n.mls_group = none →
      n.create_message s = (n, Except.error "Group required to create message"))
  ∧ (∀ (n : Node) (g : MlsGroup) (s : String), n.mls_group = some g →
      n.create_message s = (n, Except.ok (g.create_message s))) := by
  constructor
  · intro n s h
    unfold Node.create_message
    rw [h]
  · intro n g s h
    unfold Node.create_message
    rw [h]

/-- Witness for C4: a fresh node has no group and gets the error; after
creating a group the same text encrypts successfully. -/
theorem create_message_requires_group_witness :
  (Node.default ⟨0, 0⟩).create_message "hi bob" =
      (Node.default ⟨0, 0⟩, Except.error "Group required to create message")
  ∧ ((Node.default ⟨0, 0⟩).join_new_group).create_message "hi bob" =
      ((Node.default ⟨0, 0⟩).join_new_group,
        Except.ok ((generate_mls_group 0).create_message "hi bob")) :=
  ⟨create_message_requires_group.1 (Node.default ⟨0, 0⟩) "hi bob" rfl,
   create_message_requires_group.2 ((Node.default ⟨0, 0⟩).join_new_group)
     (generate_mls_group 0) "hi bob" rfl⟩

/-- C5: a node with no active group treats every inbound protocol message
as a silent no-op — `parse_message` returns `Ok(None)` and the node is
unchanged. -/
theorem parse_message_no_group_noop :
  ∀ (n : Node) (m : MlsMessageOut), n.mls_group = none →
    n.parse_message m = (n, Except.ok none) := by
  intro n m h
  unfold Node.parse_message
  rw [h]

/-- Witness for C5: a fresh node silently ignores an application message. -/
theorem parse_message_no_group_noop_witness :
  (Node.default ⟨0, 0⟩).parse_message (MlsMessageOut.application 0 0 "x") =
    (Node.default ⟨0, 0⟩, Except.ok none) :=
  parse_message_no_group_noop (Node.default ⟨0, 0⟩)
    (MlsMessageOut.application 0 0 "x") rfl

/-- C6: `join_existing_group` is atomic on error — a rejected welcome
returns the error with `mls_group` and `is_group_leader` unchanged, while
success installs the group derived from the welcome and clears the leader
flag. -/
theorem join_existing_group_atomic :
  (∀ (n : Node) (w : Welcome) (e : NodeError),
     (n.join_existing_group w).2 = Except.error e → (n.join_existing_group w).1 = n)
  ∧ (∀ (n : Node) (w : Welcome),
     (n.join_existing_group w).2 = Except.ok () →
       ∃ g, generate_mls_group_from_welcome n.identity.key_package w = Except.ok g ∧
         (n.join_existing_group w).1 =
           { n with mls_group := some g, is_group_leader := false }) := by
  constructor
  · intro n w e h
    unfold Node.join_existing_group at h ⊢
    cases hw : generate_mls_group_from_welcome n.identity.key_package w
    · rfl
    · rw [hw] at h; exact Except.noConfusion h
  · intro n w h
    unfold Node.join_existing_group at h ⊢
    cases hw : generate_mls_group_from_welcome n.identity.key_package w
    · rw [hw] at h; exact Except.noConfusion h
    · exact ⟨_, rfl, rfl⟩

/-- Witness for C6: a welcome addressed to key package 5 is rejected by the
node holding key package 0, leaving it unchanged; a welcome addressed to
key package 0 is accepted, installing the group and clearing leadership. -/
theorem join_existing_group_atomic_witness :
  ((Node.default ⟨0, 0⟩).join_existing_group ⟨0, 1, [5, 0], 5⟩).1 = Node.default ⟨0, 0⟩
  ∧ ∃ g, generate_mls_group_from_welcome 0 (⟨0, 1, [5, 0], 0⟩ : Welcome) = Except.ok g ∧
      ((Node.default ⟨0, 0⟩).join_existing_group ⟨0, 1, [5, 0], 0⟩).1 =
        { Node.default ⟨0, 0⟩ with mls_group := some g, is_group_leader := false } :=
  ⟨join_existing_group_atomic.1 (Node.default ⟨0, 0⟩) ⟨0, 1, [5, 0], 5⟩
     "welcome not addressed to this node" rfl,
   join_existing_group_atomic.2 (Node.default ⟨0, 0⟩) ⟨0, 1, [5, 0], 0⟩ rfl⟩

/-- C9: under the dispatcher's leadership precondition together with the
leader-implies-group invariant, the `"group expected"` panic branch in
`add_member_to_group` is unreachable — the operation always finds an
active group and returns a result. -/
theorem add_member_expect_unreachable :
  ∀ (n : Node) (kp : KeyPackage),
    leaderInv n → n.is_group_leader = true →
    ∃ r, n.add_member_to_group kp = some r := by
  intro n kp hinv hl
  have hsome := hinv hl
  unfold Node.add_member_to_group
  cases hg : n.mls_group
  · rw [hg] at hsome; simp at hsome
  · exact ⟨_, rfl⟩

/-- Witness for C9: a leader that created its group admits key package 1
without hitting the panic branch. -/
theorem add_member_expect_unreachable_witness :
  ∃ r, ((Node.default ⟨0, 0⟩).join_new_group).add_member_to_group 1 = some r :=
  add_member_expect_unreachable ((Node.default ⟨0, 0⟩).join_new_group) 1
    (fun _ => rfl) rfl

/-- C7: a non-leader receiving a blob that decodes as a key package
performs no group mutation and enqueues no outbound bytes — the
dispatcher returns the node unchanged with an empty outbound list. -/
theorem non_leader_key_package_noop :
  ∀ (n : Node) (b : Blob) (kp : KeyPackage),
    b.asKeyPackage = some kp → n.is_group_leader = false →
    dispatch n b = some (n, []) := by
  intro n b kp hb hl
  unfold dispatch
  rw [hb, hl]
  simp

/-- Witness for C7: a fresh (non-leader) node ignores a valid key-package
blob. -/
theorem non_leader_key_package_noop_witness :
  dispatch (Node.default ⟨0, 0⟩) ⟨some 1, none, none, []⟩ =
    some (Node.default ⟨0, 0⟩, []) :=
  non_leader_key_package_noop (Node.default ⟨0, 0⟩) ⟨some 1, none, none, []⟩ 1 rfl rfl

/-- C3: the `create` command enqueues no output bytes — the command loop
appends only the empty payload (`Vec::new()`, zero bytes) for `create`,
and a non-empty payload is produced only by `join` or `send`. -/
theorem create_command_enqueues_no_bytes :
  (∀ (n : Node) (q : List (List WireAtom)),
     commandLoopStep n q Cmd.create = (n.join_new_group, q ++ [[]]))
  ∧ (∀ (n : Node) (cmd : Cmd) (n' : Node) (msg : List WireAtom),
     parse_stdin n cmd = Except.ok (n', msg) → msg ≠ [] →
       cmd = Cmd.join ∨ ∃ s, cmd = Cmd.send s) := by
  constructor
  · intro n q; rfl
  · intro n cmd n' msg h hne
    cases cmd
    case create =>
      simp only [parse_stdin] at h
      cases h
      exact absurd rfl hne
    case join => exact Or.inl rfl
    case send s => exact Or.inr ⟨s, rfl⟩
    case invalid =>
      simp only [parse_stdin] at h
      cases h
      exact absurd rfl hne

/-- Witness for C3: a concrete `create` invocation enqueues the empty
payload, and a concrete `join` invocation is in the byte-producing class. -/
theorem create_command_enqueues_no_bytes_witness :
  commandLoopStep (Node.default ⟨0, 0⟩) [] Cmd.create =
      ((Node.default ⟨0, 0⟩).join_new_group, [[]])
  ∧ (Cmd.join = Cmd.join ∨ ∃ s, Cmd.join = Cmd.send s) :=
  ⟨create_command_enqueues_no_bytes.1 (Node.default ⟨0, 0⟩) [],
   create_command_enqueues_no_bytes.2 (Node.default ⟨0, 0⟩) Cmd.join
     (Node.default ⟨0, 0⟩) [WireAtom.keyPackageBytes 0] rfl (by simp)⟩

/-- C8: the dispatcher classifies every inbound blob in fixed priority
order — key package first, else protocol message, else welcome, else
unclassified — and `dispatch` invokes exactly the one handler selected by
that classification. -/
theorem dispatch_priority_exclusive :
  (∀ (b : Blob) (kp : KeyPackage),
     b.asKeyPackage = some kp → classify b = DispatchBranch.keyPackage)
  ∧ (∀ (b : Blob) (m : MlsMessageOut),
     b.asKeyPackage = none → b.asMsgOut = some m →
       classify b = DispatchBranch.protocolMessage)
  ∧ (∀ (b : Blob) (w : Welcome),
     b.asKeyPackage = none → b.asMsgOut = none → b.asWelcome = some w →
       classify b = DispatchBranch.welcome)
  ∧ (∀ (b : Blob),
     b.asKeyPackage = none → b.asMsgOut = none → b.asWelcome = none →
       classify b = DispatchBranch.unclassified)
  ∧ (∀ (n : Node) (b : Blob), dispatch n b = runHandler (classify b) n b) := by
  refine ⟨?_, ?_, ?_, ?_, ?_⟩
  · intro b kp h; unfold classify; rw [h]
  · intro b m h1 h2; unfold classify; rw [h1, h2]
  · intro b w h1 h2 h3; unfold classify; rw [h1, h2, h3]
  · intro b h1 h2 h3; unfold classify; rw [h1, h2, h3]
  · intro n b
    unfold dispatch runHandler classify handle_key_package handle_protocol_message
      handle_welcome handle_unclassified
    cases hk : b.asKeyPackage <;> cases hm : b.asMsgOut <;> cases hw : b.asWelcome <;> rfl

/-- Witness for C8: a blob that decodes both as a key package and as a
protocol message is classified as a key package (priority), the other
three classes at concrete blobs, and dispatch agrees with the selected
handler on a concrete input. -/
theorem dispatch_priority_exclusive_witness :
  classify ⟨some 1, some (MlsMessageOut.application 0 0 "x"), none, []⟩ =
      DispatchBranch.keyPackage
  ∧ classify ⟨none, some (MlsMessageOut.application 0 0 "x"), none, []⟩ =
      DispatchBranch.protocolMessage
  ∧ classify ⟨none, none, some ⟨0, 0, [], 0⟩, []⟩ = DispatchBranch.welcome
  ∧ classify ⟨none, none, none, [7]⟩ = DispatchBranch.unclassified
  ∧ dispatch (Node.default ⟨0, 0⟩) ⟨none, none, none, [7]⟩ =
      runHandler (classify ⟨none, none, none, [7]⟩) (Node.default ⟨0, 0⟩)
        ⟨none, none, none, [7]⟩ :=
  ⟨dispatch_priority_exclusive.1 _ 1 rfl,
   dispatch_priority_exclusive.2.1 _ (MlsMessageOut.application 0 0 "x") rfl rfl,
   dispatch_priority_exclusive.2.2.1 _ ⟨0, 0, [], 0⟩ rfl rfl rfl,
   dispatch_priority_exclusive.2.2.2.1 _ rfl rfl rfl,
   dispatch_priority_exclusive.2.2.2.2 (Node.default ⟨0, 0⟩) ⟨none, none, none, [7]⟩⟩

/-- Every non-aborting operation preserves the leadership invariant. -/
lemma step_preserves_leaderInv (n n' : Node) (op : Op)
    (hinv : leaderInv n) (h : n.step op = some n') : leaderInv n' := by
  cases op
  case joinNew =>
    simp only [Node.step, Option.some.injEq] at h
    subst h
    intro _
    simp [Node.join_new_group]
  case joinExisting w =>
    simp only [Node.step, Option.some.injEq] at h
    subst h
    unfold Node.join_existing_group
    cases hw : generate_mls_group_from_welcome n.identity.key_package w
    · exact hinv
    · intro hl
      simp at hl
  case addMember kp =>
    cases hg : n.mls_group with
    | none => simp [Node.step, Node.add_member_to_group, hg] at h
    | some g =>
      simp [Node.step, Node.add_member_to_group, MlsGroup.add_members, hg] at h
      subst h
      intro _
      simp
  case createMsg s =>
    simp only [Node.step, Option.some.injEq] at h
    subst h
    unfold Node.create_message
    cases hg : n.mls_group
    · exact hinv
    · exact hinv
  case parseMsg m =>
    simp only [Node.step, Option.some.injEq] at h
    subst h
    cases hg : n.mls_group with
    | none => simpa [Node.parse_message, hg] using hinv
    | some g =>
      cases hp : g.parse_and_process m with
      | error e => simpa [Node.parse_message, hg, hp] using hinv
      | ok pm =>
        cases pm with
        | applicationMessage s => simpa [Node.parse_message, hg, hp] using hinv
        | stagedCommitMessage merged =>
          intro _
          simp [Node.parse_message, hg, hp]

/-- The leader flag is gained only by `join_new_group`: every other
operation either keeps it or clears it. -/
lemma step_leader_from (n n' : Node) (op : Op) (h : n.step op = some n')
    (hl : n'.is_group_leader = true) :
    n.is_group_leader = true ∨ op = Op.joinNew := by
  cases op
  case joinNew => exact Or.inr rfl
  case joinExisting w =>
    left
    simp only [Node.step, Option.some.injEq] at h
    subst h
    unfold Node.join_existing_group at hl
    cases hw : generate_mls_group_from_welcome n.identity.key_package w
    · rw [hw] at hl; exact hl
    · rw [hw] at hl; simp at hl
  case addMember kp =>
    left
    cases hg : n.mls_group with
    | none => simp [Node.step, Node.add_member_to_group, hg] at h
    | some g =>
      simp [Node.step, Node.add_member_to_group, MlsGroup.add_members, hg] at h
      subst h
      exact hl
  case createMsg s =>
    left
    simp only [Node.step, Option.some.injEq] at h
    subst h
    cases hg : n.mls_group with
    | none => simpa [Node.create_message, hg] using hl
    | some g => simpa [Node.create_message, hg] using hl
  case parseMsg m =>
    left
    simp only [Node.step, Option.some.injEq] at h
    subst h
    cases hg : n.mls_group with
    | none => simpa [Node.parse_message, hg] using hl
    | some g =>
      cases hp : g.parse_and_process m with
      | error e => simpa [Node.parse_message, hg, hp] using hl
      | ok pm =>
        cases pm with
        | applicationMessage s => simpa [Node.parse_message, hg, hp] using hl
        | stagedCommitMessage merged => simpa [Node.parse_message, hg, hp] using hl

/-- The leadership invariant is preserved along every non-aborting run. -/
lemma run_preserves_leaderInv : ∀ (ops : List Op) (n n' : Node),
    leaderInv n → n.run ops = some n' → leaderInv n' := by
  intro ops
  induction ops with
  | nil =>
    intro n n' hinv h
    simp only [Node.run, Option.some.injEq] at h
    subst h
    exact hinv
  | cons op ops ih =>
    intro n n' hinv h
    simp only [Node.run, Option.bind_eq_some] at h
    obtain ⟨nm, hstep, hrun⟩ := h
    exact ih nm n' (step_preserves_leaderInv n nm op hinv hstep) hrun

/-- C1: along every sequence of operations from a freshly constructed
node, `is_group_leader = true` implies `mls_group.isSome` at every
observable point; and a node becomes leader only via `join_new_group`,
never by joining from a welcome. -/
theorem leader_implies_group_invariant :
  (∀ (id : Identity) (ops : List Op) (n' : Node),
     (Node.default id).run ops = some n' →
     n'.is_group_leader = true → n'.mls_group.isSome = true)
  ∧ (∀ (n : Node) (op : Op) (n' : Node),
     n.step op = some n' → n'.is_group_leader = true →
       n.is_group_leader = true ∨ op = Op.joinNew) := by
  constructor
  · intro id ops n' h
    exact run_preserves_leaderInv ops (Node.default id) n'
      (fun hl => by simp [Node.default] at hl) h
  · intro n op n' h hl
    exact step_leader_from n n' op h hl

/-- Witness for C1: after the run consisting of a single group creation,
the leader holds a group; and a concrete leadership gain is accounted for
by `join_new_group`. -/
theorem leader_implies_group_invariant_witness :
  ((Node.default ⟨0, 0⟩).join_new_group).mls_group.isSome = true
  ∧ ((Node.default ⟨0, 0⟩).is_group_leader = true ∨ Op.joinNew = Op.joinNew) :=
  ⟨leader_implies_group_invariant.1 ⟨0, 0⟩ [Op.joinNew]
      ((Node.default ⟨0, 0⟩).join_new_group) rfl rfl,
   leader_implies_group_invariant.2 (Node.default ⟨0, 0⟩) Op.joinNew
      ((Node.default ⟨0, 0⟩).join_new_group) rfl rfl⟩

/-- Alice, the leader of the scenario in `src/node.rs`'s smoke test. -/
def alice0 : Node := Node.default { network_key := 0, key_package := 0 }

/-- Bob, the peer admitted by Alice in the smoke-test scenario. -/
def bob0 : Node := Node.default { network_key := 1, key_package := 1 }

/-- Alice after creating the group. -/
def alice1 : Node := alice0.join_new_group

/-- The full smoke-test transcript of `src/node.rs`: Alice creates a
group, admits Bob's key package, Bob joins from the returned welcome,
Alice encrypts `"hi bob"`, Bob parses it; the result is what Bob's
`parse_message` yields. -/
def scenario_transcript : Option String :=
  match alice1.add_member_to_group bob0.get_key_package with
  | none => none
  | some (alice2, _commit, welcome) =>
      match bob0.join_existing_group welcome with
      | (bob1, Except.ok _) =>
          match alice2.create_message "hi bob" with
          | (_, Except.ok m) =>
              match bob1.parse_message m with
              | (_, Except.ok r) => r
              | (_, Except.error _) => none
          | (_, Except.error _) => none
      | (_, Except.error _) => none

/-- C2: the leader-admits-peer scenario ends with the peer decrypting
exactly `"hi bob"`, and in general an encrypt followed by a receive
against the same group state (same epoch) recovers the original plaintext
exactly. -/
theorem encrypt_receive_round_trip :
  scenario_transcript = some "hi bob"
  ∧ (∀ (sender receiver : Node) (g : MlsGroup) (s : String) (m : MlsMessageOut),
      sender.mls_group = some g → receiver.mls_group = some g →
      (sender.create_message s).2 = Except.ok m →
      receiver.parse_message m = (receiver, Except.ok (some s))) := by
  constructor
  · rfl
  · intro sender receiver g s m hs hr hm
    simp [Node.create_message, hs] at hm
    subst hm
    simp [Node.parse_message, hr, MlsGroup.create_message, MlsGroup.parse_and_process]

/-- Witness for C2: the two post-scenario nodes hold the same group state
at epoch 1, and Bob's receive of Alice's encryption of `"hi bob"` yields
exactly `"hi bob"`. -/
theorem encrypt_receive_round_trip_witness :
  ({ mls_group := some { groupId := 0, epoch := 1, members := [0, 1], pendingAdd := none },
     identity := { network_key := 1, key_package := 1 },
     is_group_leader := false : Node }).parse_message
      (MlsMessageOut.application 0 1 "hi bob") =
    ({ mls_group := some { groupId := 0, epoch := 1, members := [0, 1], pendingAdd := none },
       identity := { network_key := 1, key_package := 1 },
       is_group_leader := false : Node }, Except.ok (some "hi bob")) :=
  encrypt_receive_round_trip.2
    { mls_group := some { groupId := 0, epoch := 1, members := [0, 1], pendingAdd := none },
      identity := { network_key := 0, key_package := 0 }, is_group_leader := true }
    { mls_group := some { groupId := 0, epoch := 1, members := [0, 1], pendingAdd := none },
      identity := { network_key := 1, key_package := 1 }, is_group_leader := false }
    { groupId := 0, epoch := 1, members := [0, 1], pendingAdd := none }
    "hi bob" (MlsMessageOut.application 0 1 "hi bob") rfl rfl rfl
